import Mathlib

/-!
Shallow embedding of the Soroban preflight fee-estimation library
(`cmd/soroban-rpc/lib/preflight/src/fees.rs` and `lib.rs`) and proofs of the
specification claims about it.

Modelling conventions:
* Ledger keys, ledger entries, diagnostic events and authorized invocations are
  opaque values; only their identity and their XDR-encoded byte strings matter,
  so they are modelled as `Nat` identifiers together with explicitly supplied
  encoding functions (XDR serialization is an external capability of the
  program).
* Byte strings are `List Nat`.
* The host's metered ordered map (`footprint.0`) is modelled as an association
  list with a pure lookup; the budget argument that only meters that lookup is
  dropped.
* Rust `u32`/`u64` arithmetic on byte counts and instruction counts is modelled
  over `Nat`; the counts involved are bounded far below the machine-word range
  by network configuration, so overflow is not modelled.
* Fallible Rust functions returning `Result<_, Box<dyn Error>>` become
  `Except PreflightError _`.
-/

/-- Opaque ledger key, identified by a natural number. -/
abbrev LedgerKey := Nat

/-- Opaque ledger entry (the value recorded in the storage map). -/
abbrev LedgerEntry := Nat

/-- Opaque diagnostic event. -/
abbrev DiagnosticEvent := Nat

/-- Access classification recorded in a footprint, from
`soroban_env_host::storage::AccessType`. -/
inductive AccessType where
  | readOnly
  | readWrite
deriving DecidableEq, Repr

/-- The footprint, `soroban_env_host::storage::Footprint`: an ordered map from
ledger key to access type, modelled as an association list. -/
structure Footprint where
  entries : List (LedgerKey × AccessType)
deriving DecidableEq, Repr

/-- Pure lookup in the footprint map, modelling `footprint.0.get(lk, budget)`
(the metering of the lookup is dropped). -/
def Footprint.get (fp : Footprint) (lk : LedgerKey) : Option AccessType :=
  (fp.entries.find? (fun p => p.1 == lk)).map Prod.snd

/-- The storage map at end of execution, `soroban_env_host::storage::StorageMap`:
each touched key maps to its final value, `none` meaning deleted. -/
abbrev StorageMap := List (LedgerKey × Option LedgerEntry)

/-- XDR encoding capability: serialization of keys, entries and events to byte
strings (`WriteXdr::to_xdr`, treated as total for well-formed in-memory data). -/
structure Xdr where
  encKey : LedgerKey → List Nat
  encEntry : LedgerEntry → List Nat
  encEvent : DiagnosticEvent → List Nat

/-- Errors surfaced by the embedded fee computation, mirroring the cases of
`Box<dyn Error>` that the code distinguishes. -/
inductive PreflightError where
  /-- `ledger_storage::Error::NotFound` from the snapshot. -/
  | notFound
  /-- Any other snapshot / storage error, opaque payload. -/
  | storage (code : Nat)
  /-- An internal-consistency error raised with a message string. -/
  | invariantViolation (msg : String)
deriving DecidableEq, Repr

/-- The snapshot capability `ledger_storage::LedgerStorage::get_xdr`: a point
lookup returning the XDR-encoded entry bytes or an error. -/
abbrev LedgerStorage := LedgerKey → Except PreflightError (List Nat)

/-- The ledger footprint split into read-only and read-write key lists
(`xdr::LedgerFootprint`). -/
structure LedgerFootprint where
  read_only : List LedgerKey
  read_write : List LedgerKey
deriving DecidableEq, Repr

/-- The resource descriptor (`xdr::SorobanResources`). -/
structure SorobanResources where
  footprint : LedgerFootprint
  instructions : Nat
  read_bytes : Nat
  write_bytes : Nat
  extended_meta_data_size_bytes : Nat
deriving DecidableEq, Repr

/-- `storage_footprint_to_ledger_footprint` from `fees.rs`: iterate the
footprint map in order, pushing each key onto the read-only or read-write
list according to its access type. -/
def storage_footprint_to_ledger_footprint (foot : Footprint) : LedgerFootprint :=
  go foot.entries [] []
where
  /-- Loop of `storage_footprint_to_ledger_footprint`, accumulating the two
  vectors in iteration order. -/
  go : List (LedgerKey × AccessType) → List LedgerKey → List LedgerKey → LedgerFootprint
    | [], ro, rw => { read_only := ro.reverse, read_write := rw.reverse }
    | (k, AccessType.readOnly) :: rest, ro, rw => go rest (k :: ro) rw
    | (k, AccessType.readWrite) :: rest, ro, rw => go rest ro (k :: rw)

/-- Loop of `calculate_modified_read_write_ledger_entry_bytes` from `fees.rs`,
with the running `res` accumulator made explicit: for each storage-map pair,
a `ReadOnly` classification adds nothing, a `ReadWrite` classification adds
encoded-entry plus encoded-key bytes when the final value is present, and a
missing classification aborts with an invariant-violation error. -/
def calculate_modified_rw_aux (xdr : Xdr) (footprint : Footprint) :
    StorageMap → Nat → Except PreflightError Nat
  | [], res => .ok res
  | (lk, ole) :: rest, res =>
    match footprint.get lk with
    | some AccessType.readOnly => calculate_modified_rw_aux xdr footprint rest res
    | some AccessType.readWrite =>
      match ole with
      | some le =>
        calculate_modified_rw_aux xdr footprint rest
          (res + ((xdr.encEntry le).length + (xdr.encKey lk).length))
      | none => calculate_modified_rw_aux xdr footprint rest res
    | none => .error (.invariantViolation "storage ledger entry not found in footprint")

/-- `calculate_modified_read_write_ledger_entry_bytes` from `fees.rs`. -/
def calculate_modified_read_write_ledger_entry_bytes (xdr : Xdr)
    (footprint : Footprint) (storage_map : StorageMap) : Except PreflightError Nat :=
  calculate_modified_rw_aux xdr footprint storage_map 0

/-- Loop of `calculate_unmodified_ledger_entry_bytes` from `fees.rs`, with the
running accumulator explicit: each key adds its encoded-key length, plus the
snapshot entry length when the snapshot holds the key; `NotFound` is skipped,
any other snapshot error propagates. -/
def calculate_unmodified_aux (xdr : Xdr) (snapshot_source : LedgerStorage) :
    List LedgerKey → Nat → Except PreflightError Nat
  | [], res => .ok res
  | lk :: rest, res =>
    let res := res + (xdr.encKey lk).length
    match snapshot_source lk with
    | .ok entry_bytes => calculate_unmodified_aux xdr snapshot_source rest (res + entry_bytes.length)
    | .error .notFound => calculate_unmodified_aux xdr snapshot_source rest res
    | .error e => .error e

/-- `calculate_unmodified_ledger_entry_bytes` from `fees.rs`. -/
def calculate_unmodified_ledger_entry_bytes (xdr : Xdr)
    (ledger_entries : List LedgerKey) (snapshot_source : LedgerStorage) :
    Except PreflightError Nat :=
  calculate_unmodified_aux xdr snapshot_source ledger_entries 0

/-- `calculate_event_size_bytes` from `fees.rs`: the sum of the XDR-encoded
lengths of the diagnostic events (encoding is total in the model, so the
`Result` wrapper is dropped). -/
def calculate_event_size_bytes (xdr : Xdr) (events : List DiagnosticEvent) : Nat :=
  events.foldl (fun res e => res + (xdr.encEvent e).length) 0

/-- The instructions margin from `calculate_soroban_resources` in `fees.rs`:
a 15% leeway with a minimum of 50000 instructions over the consumed count. -/
def instructionsCharge (consumed : Nat) : Nat :=
  max (consumed + 50000) (consumed * 115 / 100)

/-- `calculate_soroban_resources` from `fees.rs` (the budget is represented by
the consumed CPU-instruction count it reports); the three fallible `?`
sub-computations are written as explicit matches in the source's evaluation
order. -/
def calculate_soroban_resources (xdr : Xdr) (snapshot_source : LedgerStorage)
    (footprint : Footprint) (storage_map : StorageMap) (budget_cpu_insns : Nat)
    (events : List DiagnosticEvent) : Except PreflightError SorobanResources :=
  let fp := storage_footprint_to_ledger_footprint footprint
  match calculate_unmodified_ledger_entry_bytes xdr fp.read_write snapshot_source with
  | .error e => .error e
  | .ok original_write_ledger_entry_bytes =>
    match calculate_unmodified_ledger_entry_bytes xdr fp.read_only snapshot_source with
    | .error e => .error e
    | .ok read_only_bytes =>
      let read_bytes := read_only_bytes + original_write_ledger_entry_bytes
      match calculate_modified_read_write_ledger_entry_bytes xdr footprint storage_map with
      | .error e => .error e
      | .ok write_bytes =>
        let meta_data_size_bytes :=
          original_write_ledger_entry_bytes + write_bytes
            + calculate_event_size_bytes xdr events
        let instructions := instructionsCharge budget_cpu_insns
        .ok { footprint := fp
              instructions := instructions
              read_bytes := read_bytes
              write_bytes := write_bytes
              extended_meta_data_size_bytes := meta_data_size_bytes }

/-! ### Specification-side byte sums (the claims' wording) -/

/-- The sum the specification ascribes to `write_bytes`: over exactly those
storage-map keys classified `ReadWrite` in the footprint whose final value is
present, the encoded-entry length plus the encoded-key length. -/
def specWriteBytes (xdr : Xdr) (footprint : Footprint) (storage_map : StorageMap) : Nat :=
  (storage_map.map (fun p =>
    match footprint.get p.1, p.2 with
    | some AccessType.readWrite, some le => (xdr.encEntry le).length + (xdr.encKey p.1).length
    | _, _ => 0)).sum

/-- The sum the specification ascribes to `unmodified_bytes(keys)`: for each
key its encoded-key length, plus the encoded-entry length exactly when the
snapshot currently contains the key. -/
def specUnmodifiedBytes (xdr : Xdr) (snapshot_source : LedgerStorage)
    (keys : List LedgerKey) : Nat :=
  (keys.map (fun lk =>
    (xdr.encKey lk).length +
      match snapshot_source lk with
      | .ok entry_bytes => entry_bytes.length
      | .error _ => 0)).sum

/-! ### Transaction-size estimation (`estimate_max_transaction_size`) -/

/-- Opaque `InvokeHostFunctionOp`, identified by a natural number (the
estimator only clones it into the envelope). -/
abbrev InvokeHostFunctionOp := Nat

/-- `xdr::MuxedAccountMed25519`. -/
structure MuxedAccountMed25519 where
  id : Nat
  ed25519 : List Nat
deriving DecidableEq, Repr

/-- `xdr::MuxedAccount`, restricted to the variant the estimator builds. -/
inductive MuxedAccount where
  | muxedEd25519 (m : MuxedAccountMed25519)
deriving DecidableEq, Repr

/-- `xdr::DecoratedSignature`. -/
structure DecoratedSignature where
  hint : List Nat
  signature : List Nat
deriving DecidableEq, Repr

/-- `xdr::Memo`, restricted to the variants relevant here. -/
inductive Memo where
  | none
  | text (bytes : List Nat)
deriving DecidableEq, Repr

/-- `xdr::OperationBody`, restricted to the invoke-host-function variant. -/
inductive OperationBody where
  | invokeHostFunction (op : InvokeHostFunctionOp)
deriving DecidableEq, Repr

/-- `xdr::Operation`. -/
structure Operation where
  source_account : Option MuxedAccount
  body : OperationBody
deriving DecidableEq, Repr

/-- `xdr::Preconditions`, restricted to the `None` variant the estimator uses. -/
inductive Preconditions where
  | noPreconditions
deriving DecidableEq, Repr

/-- `xdr::SorobanTransactionData`. -/
structure SorobanTransactionData where
  resources : SorobanResources
  refundable_fee : Int
deriving DecidableEq, Repr

/-- `xdr::TransactionExt`, restricted to the `V1` variant the estimator uses. -/
inductive TransactionExt where
  | v1 (d : SorobanTransactionData)
deriving DecidableEq, Repr

/-- `xdr::Transaction`. -/
structure Transaction where
  source_account : MuxedAccount
  fee : Nat
  seq_num : Int
  cond : Preconditions
  memo : Memo
  operations : List Operation
  ext : TransactionExt
deriving DecidableEq, Repr

/-- `xdr::TransactionV1Envelope`. -/
structure TransactionV1Envelope where
  tx : Transaction
  signatures : List DecoratedSignature
deriving DecidableEq, Repr

/-- The worst-case envelope assembled inside `estimate_max_transaction_size` in
`fees.rs`: dummy muxed source account, zero fee and sequence number, a
28-byte (maximum-length) text memo, the candidate operation with the given
footprint in the Soroban transaction data extension, and 20 default decorated
signatures (the `while` loop pushing 20 defaults). -/
def worstCaseEnvelope (invoke_hf_op : InvokeHostFunctionOp) (fp : LedgerFootprint) :
    TransactionV1Envelope :=
  let source := MuxedAccount.muxedEd25519 { id := 0, ed25519 := List.replicate 32 0 }
  let memo_text : List Nat := List.replicate 28 0
  let signatures : List DecoratedSignature :=
    List.replicate 20 { hint := List.replicate 4 0, signature := [] }
  { tx := { source_account := source
            fee := 0
            seq_num := 0
            cond := Preconditions.noPreconditions
            memo := Memo.text memo_text
            operations := [{ source_account := some source
                             body := OperationBody.invokeHostFunction invoke_hf_op }]
            ext := TransactionExt.v1
              { resources := { footprint := fp
                               instructions := 0
                               read_bytes := 0
                               write_bytes := 0
                               extended_meta_data_size_bytes := 0 }
                refundable_fee := 0 } }
    signatures := signatures }

/-- `estimate_max_transaction_size` from `fees.rs`: the XDR-encoded size of the
worst-case envelope with a 15% leeway added (`* 115 / 100`). The envelope
serializer `encEnvelope` is the external XDR capability. -/
def estimate_max_transaction_size (encEnvelope : TransactionV1Envelope → List Nat)
    (invoke_hf_op : InvokeHostFunctionOp) (fp : LedgerFootprint) : Nat :=
  let envelope_size := (encEnvelope (worstCaseEnvelope invoke_hf_op fp)).length
  envelope_size * 115 / 100

/-! ### Fee configuration and the fee formula -/

/-- `soroban_env_host::fees::FeeConfiguration`: the rate table. -/
structure FeeConfiguration where
  fee_per_instruction_increment : Nat
  fee_per_read_entry : Nat
  fee_per_write_entry : Nat
  fee_per_read_1kb : Nat
  fee_per_write_1kb : Nat
  fee_per_historical_1kb : Nat
  fee_per_metadata_1kb : Nat
  fee_per_propagate_1kb : Nat
deriving DecidableEq, Repr

/-- `soroban_env_host::fees::TransactionResources`. -/
structure TransactionResources where
  instructions : Nat
  read_entries : Nat
  write_entries : Nat
  read_bytes : Nat
  write_bytes : Nat
  metadata_size_bytes : Nat
  transaction_size_bytes : Nat
deriving DecidableEq, Repr

/-- `get_fee_configuration` from `fees.rs`: the hardcoded initial network rate
table (the snapshot argument is unused in the source as well). -/
def get_fee_configuration : FeeConfiguration :=
  { fee_per_instruction_increment := 100
    fee_per_read_entry := 5000
    fee_per_write_entry := 20000
    fee_per_read_1kb := 1000
    fee_per_write_1kb := 4000
    fee_per_historical_1kb := 100
    fee_per_metadata_1kb := 200
    fee_per_propagate_1kb := 2000 }

/-- Modelled from the spec: `compute_transaction_resource_fee` lives in the
external `soroban_env_host::fees` crate and is not part of this repository;
the spec describes it as "a fixed linear rate table (cost per
instruction-increment, per read entry, per write entry, per KB read, per KB
written, per KB of history, per KB of metadata, per KB propagated) applied to
the resource descriptor". Each resource dimension is charged linearly at its
rate, with per-KB rates applied by integer proration over 1024-byte units and
instructions charged per 10000-instruction increment. -/
def compute_transaction_resource_fee (r : TransactionResources)
    (c : FeeConfiguration) : Nat :=
  r.instructions * c.fee_per_instruction_increment / 10000
    + r.read_entries * c.fee_per_read_entry
    + r.write_entries * c.fee_per_write_entry
    + r.read_bytes * c.fee_per_read_1kb / 1024
    + r.write_bytes * c.fee_per_write_1kb / 1024
    + r.transaction_size_bytes * c.fee_per_historical_1kb / 1024
    + r.metadata_size_bytes * c.fee_per_metadata_1kb / 1024
    + r.transaction_size_bytes * c.fee_per_propagate_1kb / 1024

/-- Componentwise order on resource descriptors: every dimension of the first
is at most the corresponding dimension of the second. -/
def TransactionResources.le (r s : TransactionResources) : Prop :=
  r.instructions ≤ s.instructions ∧ r.read_entries ≤ s.read_entries
    ∧ r.write_entries ≤ s.write_entries ∧ r.read_bytes ≤ s.read_bytes
    ∧ r.write_bytes ≤ s.write_bytes ∧ r.metadata_size_bytes ≤ s.metadata_size_bytes
    ∧ r.transaction_size_bytes ≤ s.transaction_size_bytes

instance (r s : TransactionResources) : Decidable (TransactionResources.le r s) := by
  unfold TransactionResources.le
  infer_instance

/-! ### FFI boundary result marshalling (`lib.rs`) -/

/-- `CPreflightResult` from `lib.rs`: the boundary record. Nullable C pointers
become `Option`; the null-terminated string arrays become `Option (List String)`. -/
structure CPreflightResult where
  error : Option String
  auth : Option (List String)
  result : Option String
  transaction_data : Option String
  min_fee : Int
  events : Option (List String)
  cpu_instructions : Nat
  memory_bytes : Nat
deriving DecidableEq, Repr

/-- `preflight_error` from `lib.rs`: an error-only boundary record. -/
def preflight_error (s : String) : CPreflightResult :=
  { error := some s
    auth := Option.none
    result := Option.none
    transaction_data := Option.none
    min_fee := 0
    events := Option.none
    cpu_instructions := 0
    memory_bytes := 0 }

/-- The payload carried by a Rust panic, as `catch_preflight_panic` downcasts
it: either a `String` message or anything else. -/
inductive PanicPayload where
  | message (msg : String)
  | unknown
deriving DecidableEq, Repr

/-- The outcome of running the guarded closure in `catch_preflight_panic`:
either a caught panic, or the closure's `Result`. -/
abbrev PreflightOutcome := Except PanicPayload (Except String CPreflightResult)

/-- `catch_preflight_panic` from `lib.rs`: a caught panic or an inner error is
converted into an error-only record via `preflight_error`; a successful inner
result is returned unchanged. -/
def catch_preflight_panic (res : PreflightOutcome) : CPreflightResult :=
  match res with
  | .error (.message panic_msg) =>
      preflight_error ("panic during preflight() call: " ++ panic_msg)
  | .error .unknown => preflight_error "panic during preflight() call: unknown cause"
  | .ok (.ok r2) => r2
  | .ok (.error e) => preflight_error e

/-- The success record built at the end of
`preflight_invoke_hf_op_or_maybe_panic` in `lib.rs`: error is null and the
auth, result, transaction-data and events fields are populated. -/
def invoke_hf_op_success_result (auth : List String) (result : String)
    (transaction_data : String) (min_fee : Int) (events : List String)
    (cpu_instructions : Nat) (memory_bytes : Nat) : CPreflightResult :=
  { error := Option.none
    auth := some auth
    result := some result
    transaction_data := some transaction_data
    min_fee := min_fee
    events := some events
    cpu_instructions := cpu_instructions
    memory_bytes := memory_bytes }

/-- The success record built by `preflight_bump_footprint_expiration` and
`preflight_restore_footprint` in `lib.rs`: error is null, only the
transaction data and the min fee are populated. -/
def footprint_exp_success_result (transaction_data : String) (min_fee : Int) :
    CPreflightResult :=
  { error := Option.none
    auth := Option.none
    result := Option.none
    transaction_data := some transaction_data
    min_fee := min_fee
    events := Option.none
    cpu_instructions := 0
    memory_bytes := 0 }

/-! ### Recorded-auth conversion (`recorded_auth_payload_to_xdr`) -/

/-- Opaque `xdr::ScAddress`. -/
abbrev ScAddress := Nat

/-- Opaque `xdr::SorobanAuthorizedInvocation`. -/
abbrev SorobanAuthorizedInvocation := Nat

/-- `xdr::ScVal`, restricted to the void placeholder against opaque others. -/
inductive ScVal where
  | void
  | other (v : Nat)
deriving DecidableEq, Repr

/-- `xdr::SorobanAddressCredentials`. -/
structure SorobanAddressCredentials where
  address : ScAddress
  nonce : Int
  signature_expiration_ledger : Nat
  signature : ScVal
deriving DecidableEq, Repr

/-- `xdr::SorobanCredentials`. -/
inductive SorobanCredentials where
  | sourceAccount
  | address (c : SorobanAddressCredentials)
deriving DecidableEq, Repr

/-- `xdr::SorobanAuthorizationEntry`. -/
structure SorobanAuthorizationEntry where
  credentials : SorobanCredentials
  root_invocation : SorobanAuthorizedInvocation
deriving DecidableEq, Repr

/-- `soroban_env_host::auth::RecordedAuthPayload`. -/
structure RecordedAuthPayload where
  address : Option ScAddress
  nonce : Option Int
  invocation : SorobanAuthorizedInvocation
deriving DecidableEq, Repr

/-- `recorded_auth_payload_to_xdr` from `lib.rs`. The source function panics on
a payload with exactly one of address and nonce present; the panic is modelled
as the `Except` error carrying the panic message. -/
def recorded_auth_payload_to_xdr (payload : RecordedAuthPayload) :
    Except String SorobanAuthorizationEntry :=
  match payload.address, payload.nonce with
  | some address, some nonce =>
      .ok { credentials := SorobanCredentials.address
              { address := address
                nonce := nonce
                signature_expiration_ledger := 0
                signature := ScVal.void }
            root_invocation := payload.invocation }
  | Option.none, Option.none =>
      .ok { credentials := SorobanCredentials.sourceAccount
            root_invocation := payload.invocation }
  | _, _ =>
      .error "recorded_auth_payload_to_xdr: address and nonce present independently"

/-- A snapshot answer that is neither a found entry nor `NotFound`: the hard
error case that `calculate_unmodified_ledger_entry_bytes` propagates. -/
def hardSnapshotError (snapshot_source : LedgerStorage) (lk : LedgerKey) : Prop :=
  match snapshot_source lk with
  | .ok _ => False
  | .error .notFound => False
  | .error _ => True

instance (snapshot_source : LedgerStorage) (lk : LedgerKey) :
    Decidable (hardSnapshotError snapshot_source lk) :=
  match h : snapshot_source lk with
  | .ok bs => .isFalse (by simp [hardSnapshotError, h])
  | .error .notFound => .isFalse (by simp [hardSnapshotError, h])
  | .error (.storage c) => .isTrue (by simp [hardSnapshotError, h])
  | .error (.invariantViolation m) => .isTrue (by simp [hardSnapshotError, h])

/-- The sum the specification ascribes to the diagnostic-event contribution:
the total XDR-encoded byte length of the events. -/
def specEventBytes (xdr : Xdr) (events : List DiagnosticEvent) : Nat :=
  (events.map (fun e => (xdr.encEvent e).length)).sum

/-! ### Concrete sample inputs used to evaluate the development -/

/-- A concrete encoding capability: key `k` encodes to `k + 4` bytes, entry
`le` encodes to `le` bytes, event `ev` encodes to `ev` bytes. -/
def sampleXdr : Xdr :=
  { encKey := fun k => List.replicate (k + 4) 0
    encEntry := fun le => List.replicate le 0
    encEvent := fun ev => List.replicate ev 0 }

/-- A concrete snapshot: key 1 holds a 40-byte entry, key 2 a 64-byte entry,
every other key is reported `NotFound`. -/
def sampleSnapshot : LedgerStorage := fun lk =>
  if lk = 1 then .ok (List.replicate 40 0)
  else if lk = 2 then .ok (List.replicate 64 0)
  else .error .notFound

/-- A concrete footprint: key 1 read-only, keys 2 and 3 read-write. -/
def sampleFootprint : Footprint :=
  { entries := [(1, AccessType.readOnly), (2, AccessType.readWrite),
                (3, AccessType.readWrite)] }

/-- A concrete end-of-execution storage map over `sampleFootprint`: key 1
unchanged, key 2 with an 80-byte final value, key 3 brand new with a 30-byte
final value. -/
def sampleStorageMap : StorageMap := [(1, some 40), (2, some 80), (3, some 30)]

/-! ### Helper lemmas -/

/-- When every storage-map key is classified in the footprint, the
write-bytes loop succeeds and returns the accumulator plus the
specification's sum. -/
theorem modified_rw_aux_ok_of_covered (xdr : Xdr) (fp : Footprint) :
    ∀ (m : StorageMap) (acc : Nat), (∀ p ∈ m, (fp.get p.1).isSome) →
      calculate_modified_rw_aux xdr fp m acc = .ok (acc + specWriteBytes xdr fp m) := by
  intro m
  induction m with
  | nil =>
    intro acc _
    simp [calculate_modified_rw_aux, specWriteBytes]
  | cons p rest ih =>
    intro acc h
    obtain ⟨lk, ole⟩ := p
    have hhead := h (lk, ole) (List.mem_cons_self _ _)
    have htail : ∀ q ∈ rest, (fp.get q.1).isSome := fun q hq => h q (List.mem_cons_of_mem _ hq)
    cases ha : fp.get lk with
    | none => rw [ha] at hhead; simp at hhead
    | some a =>
      cases a with
      | readOnly =>
        simp only [calculate_modified_rw_aux, ha]
        rw [ih acc htail]
        simp [specWriteBytes, ha]
      | readWrite =>
        cases ole with
        | none =>
          simp only [calculate_modified_rw_aux, ha]
          rw [ih acc htail]
          simp [specWriteBytes, ha]
        | some le =>
          simp only [calculate_modified_rw_aux, ha]
          rw [ih _ htail]
          have hspec : specWriteBytes xdr fp ((lk, some le) :: rest)
              = (xdr.encEntry le).length + (xdr.encKey lk).length
                + specWriteBytes xdr fp rest := by
            simp [specWriteBytes, ha]
          rw [hspec]
          congr 1
          omega

/-- When some storage-map key has no classification in the footprint, the
write-bytes loop fails with the invariant-violation error, whatever the
accumulator. -/
theorem modified_rw_aux_error_of_uncovered (xdr : Xdr) (fp : Footprint) :
    ∀ (m : StorageMap) (acc : Nat), (∃ p ∈ m, fp.get p.1 = Option.none) →
      calculate_modified_rw_aux xdr fp m acc =
        .error (.invariantViolation "storage ledger entry not found in footprint") := by
  intro m
  induction m with
  | nil =>
    intro acc h
    obtain ⟨p, hp, _⟩ := h
    exact absurd hp (List.not_mem_nil p)
  | cons p rest ih =>
    intro acc h
    obtain ⟨lk, ole⟩ := p
    cases ha : fp.get lk with
    | none => simp only [calculate_modified_rw_aux, ha]
    | some a =>
      have htail : ∃ q ∈ rest, fp.get q.1 = Option.none := by
        obtain ⟨q, hq, hqn⟩ := h
        rcases List.mem_cons.mp hq with hq | hq
        · subst hq; rw [ha] at hqn; exact absurd hqn (by simp)
        · exact ⟨q, hq, hqn⟩
      cases a with
      | readOnly => simp only [calculate_modified_rw_aux, ha]; exact ih _ htail
      | readWrite =>
        cases ole with
        | none => simp only [calculate_modified_rw_aux, ha]; exact ih _ htail
        | some le => simp only [calculate_modified_rw_aux, ha]; exact ih _ htail

/-- A successful run of the unmodified-bytes loop returns the accumulator plus
the specification's sum (success implies no hard snapshot error was hit). -/
theorem unmodified_aux_ok_imp (xdr : Xdr) (snap : LedgerStorage) :
    ∀ (keys : List LedgerKey) (acc n : Nat),
      calculate_unmodified_aux xdr snap keys acc = .ok n →
      n = acc + specUnmodifiedBytes xdr snap keys := by
  intro keys
  induction keys with
  | nil =>
    intro acc n h
    simp [calculate_unmodified_aux] at h
    simp [specUnmodifiedBytes, h.symm]
  | cons lk rest ih =>
    intro acc n h
    cases hs : snap lk with
    | ok entry_bytes =>
      simp only [calculate_unmodified_aux, hs] at h
      have := ih _ _ h
      simp only [specUnmodifiedBytes, List.map_cons, List.sum_cons, hs] at this ⊢
      omega
    | error e =>
      cases e with
      | notFound =>
        simp only [calculate_unmodified_aux, hs] at h
        have := ih _ _ h
        simp only [specUnmodifiedBytes, List.map_cons, List.sum_cons, hs] at this ⊢
        omega
      | storage c =>
        simp only [calculate_unmodified_aux, hs] at h
        exact Except.noConfusion h
      | invariantViolation m =>
        simp only [calculate_unmodified_aux, hs] at h
        exact Except.noConfusion h

/-- When no key meets a hard snapshot error, the unmodified-bytes loop
succeeds with the accumulator plus the specification's sum. -/
theorem unmodified_aux_ok_of_no_hard_error (xdr : Xdr) (snap : LedgerStorage) :
    ∀ (keys : List LedgerKey) (acc : Nat), (∀ k ∈ keys, ¬ hardSnapshotError snap k) →
      calculate_unmodified_aux xdr snap keys acc =
        .ok (acc + specUnmodifiedBytes xdr snap keys) := by
  intro keys
  induction keys with
  | nil =>
    intro acc _
    simp [calculate_unmodified_aux, specUnmodifiedBytes]
  | cons lk rest ih =>
    intro acc h
    have hhead := h lk (List.mem_cons_self _ _)
    have htail : ∀ k ∈ rest, ¬ hardSnapshotError snap k :=
      fun k hk => h k (List.mem_cons_of_mem _ hk)
    cases hs : snap lk with
    | ok entry_bytes =>
      simp only [calculate_unmodified_aux, hs]
      rw [ih _ htail]
      simp only [specUnmodifiedBytes, List.map_cons, List.sum_cons, hs]
      congr 1
      omega
    | error e =>
      cases e with
      | notFound =>
        simp only [calculate_unmodified_aux, hs]
        rw [ih _ htail]
        simp only [specUnmodifiedBytes, List.map_cons, List.sum_cons, hs]
        congr 1
        omega
      | storage c => rw [hardSnapshotError, hs] at hhead; simp at hhead
      | invariantViolation m => rw [hardSnapshotError, hs] at hhead; simp at hhead

/-- A successful run of the write-bytes loop returns the accumulator plus the
specification's sum. -/
theorem modified_rw_aux_ok_imp (xdr : Xdr) (fp : Footprint) :
    ∀ (m : StorageMap) (acc n : Nat),
      calculate_modified_rw_aux xdr fp m acc = .ok n →
      n = acc + specWriteBytes xdr fp m := by
  intro m
  induction m with
  | nil =>
    intro acc n h
    simp [calculate_modified_rw_aux] at h
    simp [specWriteBytes, h.symm]
  | cons p rest ih =>
    intro acc n h
    obtain ⟨lk, ole⟩ := p
    cases ha : fp.get lk with
    | none =>
      simp only [calculate_modified_rw_aux, ha] at h
      exact Except.noConfusion h
    | some a =>
      cases a with
      | readOnly =>
        simp only [calculate_modified_rw_aux, ha] at h
        have := ih _ _ h
        have hspec : specWriteBytes xdr fp ((lk, ole) :: rest)
            = specWriteBytes xdr fp rest := by
          simp [specWriteBytes, ha]
        rw [hspec]
        omega
      | readWrite =>
        cases ole with
        | none =>
          simp only [calculate_modified_rw_aux, ha] at h
          have := ih _ _ h
          have hspec : specWriteBytes xdr fp ((lk, Option.none) :: rest)
              = specWriteBytes xdr fp rest := by
            simp [specWriteBytes, ha]
          rw [hspec]
          omega
        | some le =>
          simp only [calculate_modified_rw_aux, ha] at h
          have := ih _ _ h
          have hspec : specWriteBytes xdr fp ((lk, some le) :: rest)
              = (xdr.encEntry le).length + (xdr.encKey lk).length
                + specWriteBytes xdr fp rest := by
            simp [specWriteBytes, ha]
          rw [hspec]
          omega

/-- The event-size fold computes the specification's event-byte sum. -/
theorem event_size_eq_specEventBytes (xdr : Xdr) (events : List DiagnosticEvent) :
    calculate_event_size_bytes xdr events = specEventBytes xdr events := by
  suffices h : ∀ (acc : Nat),
      events.foldl (fun res e => res + (xdr.encEvent e).length) acc
        = acc + specEventBytes xdr events by
    simpa [calculate_event_size_bytes] using h 0
  induction events with
  | nil => intro acc; simp [specEventBytes]
  | cons e rest ih =>
    intro acc
    simp only [List.foldl_cons, ih, specEventBytes, List.map_cons, List.sum_cons]
    omega

/-- A successful run of `calculate_unmodified_ledger_entry_bytes` returns the
specification's unmodified-bytes sum. -/
theorem calculate_unmodified_ok_imp (xdr : Xdr) (snap : LedgerStorage)
    (keys : List LedgerKey) (n : Nat)
    (h : calculate_unmodified_ledger_entry_bytes xdr keys snap = .ok n) :
    n = specUnmodifiedBytes xdr snap keys := by
  have := unmodified_aux_ok_imp xdr snap keys 0 n h
  simpa using this

/-- A successful run of `calculate_modified_read_write_ledger_entry_bytes`
returns the specification's write-bytes sum. -/
theorem calculate_modified_ok_imp (xdr : Xdr) (fp : Footprint) (m : StorageMap)
    (n : Nat) (h : calculate_modified_read_write_ledger_entry_bytes xdr fp m = .ok n) :
    n = specWriteBytes xdr fp m := by
  have := modified_rw_aux_ok_imp xdr fp m 0 n h
  simpa using this

/-- Dissection of a successful `calculate_soroban_resources` run: each field of
the returned resource descriptor in terms of the specification-side sums. -/
theorem soroban_resources_ok_fields (xdr : Xdr) (snap : LedgerStorage)
    (footprint : Footprint) (storage_map : StorageMap) (c : Nat)
    (events : List DiagnosticEvent) (r : SorobanResources)
    (h : calculate_soroban_resources xdr snap footprint storage_map c events = .ok r) :
    r.footprint = storage_footprint_to_ledger_footprint footprint
    ∧ r.instructions = instructionsCharge c
    ∧ r.read_bytes
        = specUnmodifiedBytes xdr snap (storage_footprint_to_ledger_footprint footprint).read_only
          + specUnmodifiedBytes xdr snap (storage_footprint_to_ledger_footprint footprint).read_write
    ∧ r.write_bytes = specWriteBytes xdr footprint storage_map
    ∧ r.extended_meta_data_size_bytes
        = specUnmodifiedBytes xdr snap (storage_footprint_to_ledger_footprint footprint).read_write
          + specWriteBytes xdr footprint storage_map
          + specEventBytes xdr events := by
  simp only [calculate_soroban_resources] at h
  cases h1 : calculate_unmodified_ledger_entry_bytes xdr
      (storage_footprint_to_ledger_footprint footprint).read_write snap with
  | error e => rw [h1] at h; exact Except.noConfusion h
  | ok owb =>
    rw [h1] at h
    cases h2 : calculate_unmodified_ledger_entry_bytes xdr
        (storage_footprint_to_ledger_footprint footprint).read_only snap with
    | error e => rw [h2] at h; exact Except.noConfusion h
    | ok rob =>
      rw [h2] at h
      cases h3 : calculate_modified_read_write_ledger_entry_bytes xdr footprint storage_map with
      | error e => rw [h3] at h; exact Except.noConfusion h
      | ok wb =>
        rw [h3] at h
        simp only [Except.ok.injEq] at h
        subst h
        have howb := calculate_unmodified_ok_imp xdr snap _ owb h1
        have hrob := calculate_unmodified_ok_imp xdr snap _ rob h2
        have hwb := calculate_modified_ok_imp xdr footprint storage_map wb h3
        subst howb hrob hwb
        exact ⟨rfl, rfl, rfl, rfl, by simp [event_size_eq_specEventBytes]⟩

/-! ### The claims -/

/-- C1: for every footprint and storage map whose keys it classifies, the
computed `write_bytes` equals the sum, over exactly those storage-map keys
classified ReadWrite whose end-of-execution value is present, of the encoded
entry length plus the encoded key length; deleted keys contribute nothing. -/
theorem claim1_write_bytes_eq_spec_sum (xdr : Xdr) (fp : Footprint) (m : StorageMap)
    (h : ∀ p ∈ m, (fp.get p.1).isSome) :
    calculate_modified_read_write_ledger_entry_bytes xdr fp m
      = .ok (specWriteBytes xdr fp m) := by
  unfold calculate_modified_read_write_ledger_entry_bytes
  simpa using modified_rw_aux_ok_of_covered xdr fp m 0 h

/-- Witness for C1 on the sample inputs: the write bytes are 123, and the
brand-new ReadWrite key 3 (absent from the snapshot) with a 30-byte final
value contributes 30 plus its 7 encoded key bytes. -/
theorem claim1_write_bytes_witness :
    calculate_modified_read_write_ledger_entry_bytes sampleXdr sampleFootprint sampleStorageMap
        = .ok (specWriteBytes sampleXdr sampleFootprint sampleStorageMap)
    ∧ specWriteBytes sampleXdr sampleFootprint sampleStorageMap = 123
    ∧ specWriteBytes sampleXdr sampleFootprint [(3, some 30)]
        = 30 + (sampleXdr.encKey 3).length :=
  ⟨claim1_write_bytes_eq_spec_sum sampleXdr sampleFootprint sampleStorageMap (by decide),
   by decide, by decide⟩

/-- C5: for any storage map all of whose keys are classified in the footprint,
the write-bytes computation returns a value (no panic, no error from the
consistency check); and any storage map containing an unclassified key
deterministically returns the invariant-violation error. -/
theorem claim5_footprint_consistency (xdr : Xdr) (fp : Footprint) (m : StorageMap) :
    ((∀ p ∈ m, (fp.get p.1).isSome) →
        ∃ n, calculate_modified_read_write_ledger_entry_bytes xdr fp m = .ok n)
    ∧ ((∃ p ∈ m, fp.get p.1 = Option.none) →
        calculate_modified_read_write_ledger_entry_bytes xdr fp m
          = .error (.invariantViolation "storage ledger entry not found in footprint")) := by
  constructor
  · intro h
    refine ⟨specWriteBytes xdr fp m, ?_⟩
    unfold calculate_modified_read_write_ledger_entry_bytes
    simpa using modified_rw_aux_ok_of_covered xdr fp m 0 h
  · intro h
    unfold calculate_modified_read_write_ledger_entry_bytes
    exact modified_rw_aux_error_of_uncovered xdr fp m 0 h

/-- Witness for C5: the covered sample storage map succeeds, and a map holding
the unclassified key 4 yields the invariant-violation error. -/
theorem claim5_footprint_consistency_witness :
    (∃ n, calculate_modified_read_write_ledger_entry_bytes sampleXdr sampleFootprint
            sampleStorageMap = .ok n)
    ∧ calculate_modified_read_write_ledger_entry_bytes sampleXdr sampleFootprint
          [(4, some 10)]
        = .error (.invariantViolation "storage ledger entry not found in footprint") :=
  ⟨(claim5_footprint_consistency sampleXdr sampleFootprint sampleStorageMap).1 (by decide),
   (claim5_footprint_consistency sampleXdr sampleFootprint [(4, some 10)]).2
     ⟨(4, some 10), by decide, by decide⟩⟩

/-- C10: a storage-map key classified ReadOnly in the footprint adds nothing to
the write-bytes computation and raises no error, whether or not its final
value is present; the computation rejects a map exactly when it holds a key
with no footprint classification at all. -/
theorem claim10_read_only_key_contributes_nothing (xdr : Xdr) (fp : Footprint)
    (lk : LedgerKey) (ole : Option LedgerEntry) (m : StorageMap)
    (h : fp.get lk = some AccessType.readOnly) :
    calculate_modified_read_write_ledger_entry_bytes xdr fp ((lk, ole) :: m)
        = calculate_modified_read_write_ledger_entry_bytes xdr fp m
    ∧ ((∃ e, calculate_modified_read_write_ledger_entry_bytes xdr fp m = .error e)
        ↔ ∃ p ∈ m, fp.get p.1 = Option.none) := by
  constructor
  · unfold calculate_modified_read_write_ledger_entry_bytes
    simp only [calculate_modified_rw_aux, h]
  · constructor
    · rintro ⟨e, he⟩
      by_contra hnone
      push_neg at hnone
      have hcov : ∀ p ∈ m, (fp.get p.1).isSome := by
        intro p hp
        cases hq : fp.get p.1 with
        | none => exact absurd hq (hnone p hp)
        | some a => rfl
      have := modified_rw_aux_ok_of_covered xdr fp m 0 hcov
      unfold calculate_modified_read_write_ledger_entry_bytes at he
      rw [this] at he
      exact Except.noConfusion he
    · intro hex
      refine ⟨.invariantViolation "storage ledger entry not found in footprint", ?_⟩
      unfold calculate_modified_read_write_ledger_entry_bytes
      exact modified_rw_aux_error_of_uncovered xdr fp m 0 hex

/-- Witness for C10: prepending the ReadOnly key 1 — here with a deleted final
value — leaves the sample write-bytes computation unchanged. -/
theorem claim10_read_only_key_witness :
    calculate_modified_read_write_ledger_entry_bytes sampleXdr sampleFootprint
        ((1, Option.none) :: sampleStorageMap)
      = calculate_modified_read_write_ledger_entry_bytes sampleXdr sampleFootprint
          sampleStorageMap :=
  (claim10_read_only_key_contributes_nothing sampleXdr sampleFootprint 1 Option.none
      sampleStorageMap (by decide)).1

/-- C2: the instructions field of a successfully computed resource descriptor
equals the larger of the consumed count plus the fixed 50000-instruction floor
margin and the 15% proportional margin `consumed * 115 / 100` (the integer
form of `consumed * 1.15`). -/
theorem claim2_instructions_margin (xdr : Xdr) (snap : LedgerStorage)
    (footprint : Footprint) (storage_map : StorageMap) (c : Nat)
    (events : List DiagnosticEvent) (r : SorobanResources)
    (h : calculate_soroban_resources xdr snap footprint storage_map c events = .ok r) :
    r.instructions = max (c + 50000) (c * 115 / 100) :=
  (soroban_resources_ok_fields xdr snap footprint storage_map c events r h).2.1

/-- Witness for C2 on the sample inputs with 100000 consumed instructions: the
descriptor's instructions field is 150000 = max (150000, 115000). -/
theorem claim2_instructions_witness :
    calculate_soroban_resources sampleXdr sampleSnapshot sampleFootprint sampleStorageMap
        100000 [5, 10]
      = .ok { footprint := { read_only := [1], read_write := [2, 3] }
              instructions := 150000
              read_bytes := 122
              write_bytes := 123
              extended_meta_data_size_bytes := 215 }
    ∧ (150000 : Nat) = max (100000 + 50000) (100000 * 115 / 100) :=
  ⟨by rfl,
   claim2_instructions_margin sampleXdr sampleSnapshot sampleFootprint sampleStorageMap
     100000 [5, 10]
     { footprint := { read_only := [1], read_write := [2, 3] }
       instructions := 150000
       read_bytes := 122
       write_bytes := 123
       extended_meta_data_size_bytes := 215 } (by rfl)⟩

/-- C3: the read-bytes field of a successfully computed resource descriptor is
the unmodified-bytes sum over the ReadOnly footprint keys plus the
unmodified-bytes sum over the ReadWrite footprint keys, where each key adds
its encoded-key length plus its encoded-entry length exactly when the snapshot
currently contains it; a key the snapshot reports NotFound contributes exactly
its key bytes through `calculate_unmodified_ledger_entry_bytes`, with no
error. -/
theorem claim3_read_bytes_unmodified (xdr : Xdr) (snap : LedgerStorage)
    (footprint : Footprint) (storage_map : StorageMap) (c : Nat)
    (events : List DiagnosticEvent) (r : SorobanResources)
    (h : calculate_soroban_resources xdr snap footprint storage_map c events = .ok r) :
    r.read_bytes
        = specUnmodifiedBytes xdr snap (storage_footprint_to_ledger_footprint footprint).read_only
          + specUnmodifiedBytes xdr snap (storage_footprint_to_ledger_footprint footprint).read_write
    ∧ ∀ k, snap k = .error .notFound →
        calculate_unmodified_ledger_entry_bytes xdr [k] snap = .ok (xdr.encKey k).length := by
  refine ⟨(soroban_resources_ok_fields xdr snap footprint storage_map c events r h).2.2.1, ?_⟩
  intro k hk
  simp [calculate_unmodified_ledger_entry_bytes, calculate_unmodified_aux, hk]

/-- Witness for C3 on the sample inputs: read bytes are 122 = (5 + 40) for the
ReadOnly key plus (6 + 64) + (7 + 0) for the ReadWrite keys, key 3 being
reported NotFound by the snapshot. -/
theorem claim3_read_bytes_witness :
    (122 : Nat)
        = specUnmodifiedBytes sampleXdr sampleSnapshot
            (storage_footprint_to_ledger_footprint sampleFootprint).read_only
          + specUnmodifiedBytes sampleXdr sampleSnapshot
              (storage_footprint_to_ledger_footprint sampleFootprint).read_write
    ∧ calculate_unmodified_ledger_entry_bytes sampleXdr [3] sampleSnapshot
        = .ok (sampleXdr.encKey 3).length :=
  have h := claim3_read_bytes_unmodified sampleXdr sampleSnapshot sampleFootprint
    sampleStorageMap 100000 [5, 10]
    { footprint := { read_only := [1], read_write := [2, 3] }
      instructions := 150000
      read_bytes := 122
      write_bytes := 123
      extended_meta_data_size_bytes := 215 } (by rfl)
  ⟨h.1, h.2 3 (by rfl)⟩

/-- C4: the metadata field (`extended_meta_data_size_bytes`) of a successfully
computed resource descriptor equals the unmodified-bytes sum over the
ReadWrite footprint keys, plus the descriptor's own write-bytes field, plus
the total encoded byte length of the diagnostic events. -/
theorem claim4_metadata_bytes (xdr : Xdr) (snap : LedgerStorage)
    (footprint : Footprint) (storage_map : StorageMap) (c : Nat)
    (events : List DiagnosticEvent) (r : SorobanResources)
    (h : calculate_soroban_resources xdr snap footprint storage_map c events = .ok r) :
    r.extended_meta_data_size_bytes
      = specUnmodifiedBytes xdr snap (storage_footprint_to_ledger_footprint footprint).read_write
        + r.write_bytes + specEventBytes xdr events := by
  obtain ⟨-, -, -, hwb, hmeta⟩ :=
    soroban_resources_ok_fields xdr snap footprint storage_map c events r h
  rw [hmeta, hwb]

/-- Witness for C4 on the sample inputs: the metadata bytes are
215 = 77 (unmodified ReadWrite bytes) + 123 (write bytes) + 15 (event bytes). -/
theorem claim4_metadata_witness :
    (215 : Nat)
      = specUnmodifiedBytes sampleXdr sampleSnapshot
          (storage_footprint_to_ledger_footprint sampleFootprint).read_write
        + 123 + specEventBytes sampleXdr [5, 10] :=
  claim4_metadata_bytes sampleXdr sampleSnapshot sampleFootprint sampleStorageMap
    100000 [5, 10]
    { footprint := { read_only := [1], read_write := [2, 3] }
      instructions := 150000
      read_bytes := 122
      write_bytes := 123
      extended_meta_data_size_bytes := 215 } (by rfl)

/-- C7: the estimated transaction size is the XDR-encoded byte length of the
worst-case signed envelope inflated by 15% (`* 115 / 100`), and that envelope
carries a 28-byte text memo (the XDR maximum for `Memo::Text`), exactly 20
default decorated signatures, the candidate invoke-host-function operation,
and the given footprint inside its Soroban transaction data extension. -/
theorem claim7_transaction_size_estimate (encEnvelope : TransactionV1Envelope → List Nat)
    (invoke_hf_op : InvokeHostFunctionOp) (fp : LedgerFootprint) :
    estimate_max_transaction_size encEnvelope invoke_hf_op fp
        = (encEnvelope (worstCaseEnvelope invoke_hf_op fp)).length * 115 / 100
    ∧ (worstCaseEnvelope invoke_hf_op fp).tx.memo = Memo.text (List.replicate 28 0)
    ∧ (worstCaseEnvelope invoke_hf_op fp).signatures
        = List.replicate 20 { hint := List.replicate 4 0, signature := [] }
    ∧ (worstCaseEnvelope invoke_hf_op fp).tx.operations
        = [{ source_account := some (MuxedAccount.muxedEd25519
                { id := 0, ed25519 := List.replicate 32 0 })
             body := OperationBody.invokeHostFunction invoke_hf_op }]
    ∧ (worstCaseEnvelope invoke_hf_op fp).tx.ext
        = TransactionExt.v1
            { resources := { footprint := fp
                             instructions := 0
                             read_bytes := 0
                             write_bytes := 0
                             extended_meta_data_size_bytes := 0 }
              refundable_fee := 0 } :=
  ⟨rfl, rfl, rfl, rfl, rfl⟩

/-- C8: the charged instructions value is strictly monotonic in the consumed
count, and with the fixed hardcoded rate table the fee never decreases when
any resource dimension grows. -/
theorem claim8_monotonicity :
    (∀ c1 c2 : Nat, c1 < c2 → instructionsCharge c1 < instructionsCharge c2)
    ∧ (∀ r s : TransactionResources, TransactionResources.le r s →
        compute_transaction_resource_fee r get_fee_configuration
          ≤ compute_transaction_resource_fee s get_fee_configuration) := by
  constructor
  · intro c1 c2 h
    have h1 : c1 + 50000 < c2 + 50000 := by omega
    have h2 : c1 * 115 / 100 < c2 * 115 / 100 := by omega
    exact max_lt_max h1 h2
  · intro r s hle
    obtain ⟨h1, h2, h3, h4, h5, h6, h7⟩ := hle
    unfold compute_transaction_resource_fee
    gcongr

/-- Witness for C8: 100000 consumed instructions charge strictly less than
2000000 consumed instructions, and a componentwise-larger resource descriptor
is charged at least as much under the fixed rate table. -/
theorem claim8_monotonicity_witness :
    instructionsCharge 100000 < instructionsCharge 2000000
    ∧ compute_transaction_resource_fee
          { instructions := 100000, read_entries := 1, write_entries := 1
            read_bytes := 100, write_bytes := 100, metadata_size_bytes := 100
            transaction_size_bytes := 100 } get_fee_configuration
        ≤ compute_transaction_resource_fee
            { instructions := 2000000, read_entries := 2, write_entries := 1
              read_bytes := 100, write_bytes := 200, metadata_size_bytes := 100
              transaction_size_bytes := 100 } get_fee_configuration :=
  ⟨claim8_monotonicity.1 100000 2000000 (by decide),
   claim8_monotonicity.2 _ _ (by decide)⟩

/-- C6: every boundary record populates exactly one side — an inner error or a
caught panic yields a record with a populated error string and all success
fields null or zero; an inner success record built at one of the success
sites has a null error field; and a panic never propagates past
`catch_preflight_panic`, being converted into an error-string record. -/
theorem claim6_boundary_tagged_union (o : PreflightOutcome)
    (hsucc : ∀ s, o = .ok (.ok s) →
      (∃ auth result txd fee events cpu mem,
          s = invoke_hf_op_success_result auth result txd fee events cpu mem)
      ∨ ∃ txd fee, s = footprint_exp_success_result txd fee) :
    (∀ e, o = .ok (.error e) → catch_preflight_panic o = preflight_error e)
    ∧ (∀ p, o = .error p → ∃ msg, catch_preflight_panic o = preflight_error msg)
    ∧ (∀ s, o = .ok (.ok s) → (catch_preflight_panic o).error = Option.none)
    ∧ ∀ msg, (preflight_error msg).error = some msg
        ∧ (preflight_error msg).auth = Option.none
        ∧ (preflight_error msg).result = Option.none
        ∧ (preflight_error msg).transaction_data = Option.none
        ∧ (preflight_error msg).min_fee = 0
        ∧ (preflight_error msg).events = Option.none
        ∧ (preflight_error msg).cpu_instructions = 0
        ∧ (preflight_error msg).memory_bytes = 0 := by
  refine ⟨?_, ?_, ?_, ?_⟩
  · intro e he
    subst he
    rfl
  · intro p hp
    subst hp
    cases p with
    | message m => exact ⟨_, rfl⟩
    | unknown => exact ⟨_, rfl⟩
  · intro s hs
    subst hs
    rcases hsucc s rfl with ⟨a, r2, t, f, ev, cp, me, rfl⟩ | ⟨t, f, rfl⟩ <;> rfl
  · intro msg
    exact ⟨rfl, rfl, rfl, rfl, rfl, rfl, rfl, rfl⟩

/-- Witness for C6: an inner error becomes an error-only record, and a caught
string panic is converted into an error-string record. -/
theorem claim6_boundary_witness :
    catch_preflight_panic (.ok (.error "simulated failure"))
        = preflight_error "simulated failure"
    ∧ ∃ msg, catch_preflight_panic (.error (.message "boom")) = preflight_error msg :=
  ⟨(claim6_boundary_tagged_union (.ok (.error "simulated failure"))
      (fun s h => by simp at h)).1 "simulated failure" rfl,
   (claim6_boundary_tagged_union (.error (.message "boom"))
      (fun s h => by simp at h)).2.1 (.message "boom") rfl⟩

/-- C9: converting a recorded authorization payload yields an
address-credential entry with a Void signature and zero signature expiration
when both address and nonce are present, a source-account-credential entry
when neither is present, and a fatal fault — surfaced by the boundary guard
as an error-string record — when exactly one of them is present. -/
theorem claim9_recorded_auth_conversion (payload : RecordedAuthPayload) :
    (∀ address nonce, payload.address = some address → payload.nonce = some nonce →
        recorded_auth_payload_to_xdr payload
          = .ok { credentials := SorobanCredentials.address
                    { address := address
                      nonce := nonce
                      signature_expiration_ledger := 0
                      signature := ScVal.void }
                  root_invocation := payload.invocation })
    ∧ (payload.address = Option.none → payload.nonce = Option.none →
        recorded_auth_payload_to_xdr payload
          = .ok { credentials := SorobanCredentials.sourceAccount
                  root_invocation := payload.invocation })
    ∧ (payload.address.isSome ≠ payload.nonce.isSome →
        ∃ msg, recorded_auth_payload_to_xdr payload = .error msg
          ∧ catch_preflight_panic (.error (.message msg))
              = preflight_error ("panic during preflight() call: " ++ msg)) := by
  obtain ⟨pa, pn, pinv⟩ := payload
  refine ⟨?_, ?_, ?_⟩
  · intro address nonce ha hn
    simp only at ha hn
    subst ha hn
    rfl
  · intro ha hn
    simp only at ha hn
    subst ha hn
    rfl
  · intro hne
    cases pa with
    | none =>
      cases pn with
      | none => simp at hne
      | some n => exact ⟨_, rfl, rfl⟩
    | some a =>
      cases pn with
      | none => exact ⟨_, rfl, rfl⟩
      | some n => simp at hne

/-- Witness for C9 at a concrete payload with both address and nonce present:
the conversion yields the address-credential entry with Void signature and
zero expiration. -/
theorem claim9_recorded_auth_witness :
    recorded_auth_payload_to_xdr { address := some 3, nonce := some 5, invocation := 9 }
      = .ok { credentials := SorobanCredentials.address
                { address := 3
                  nonce := 5
                  signature_expiration_ledger := 0
                  signature := ScVal.void }
              root_invocation := 9 } :=
  (claim9_recorded_auth_conversion
      { address := some 3, nonce := some 5, invocation := 9 }).1 3 5 rfl rfl
